import Mathlib

set_option maxRecDepth 100000

/-!
Verification of the SOS ELF parsing engine (`elf/src/lib.rs`) against its
natural-language specification.

The embedding translates the Rust source shallowly:

* Byte buffers (`&[u8]`) are `List UInt8`; `usize` values are `Nat` together
  with an explicit bound `USIZE = 2 ^ 64` wherever the source performs
  arithmetic that can overflow.
* Rust arithmetic is embedded with checked semantics: an overflowing
  `usize` subtraction or multiplication, and an out-of-range slice index
  (`data[a..b]` with `a > b` or `b > len`), are a `panic` outcome, distinct
  from the `Err` values the functions return on checked failures.
* A returned `&[T]` produced by `slice::from_raw_parts` is modelled by a
  `RawSlice`: the byte offset of its first element inside the buffer it was
  carved from, and its element count; the bytes it views are recovered by
  `RawSlice.view`.
* The submodules `file.rs`, `section.rs` and `program.rs` are not part of
  the provided sources; the file-header parser and its geometry accessors
  are modelled from the specification and are marked as such.
-/

namespace SosElf

/-- `usize::MAX + 1` on the 64-bit target. -/
def USIZE : Nat := 2 ^ 64

/-- Outcome of running a Rust function returning `ElfResult<A>`
(`Result<A, &'static str>`): a success, an error string, or a panic. -/
inductive Outcome (A : Type) where
  | ok : A → Outcome A
  | err : String → Outcome A
  | panic : Outcome A
deriving DecidableEq

/-- `?`-propagation of `ElfResult`, with panics propagated as well. -/
def Outcome.bind {A B : Type} : Outcome A → (A → Outcome B) → Outcome B
  | Outcome.ok a, f => f a
  | Outcome.err e, _ => Outcome.err e
  | Outcome.panic, _ => Outcome.panic

/-- A borrowed typed slice `&[T]` produced by reinterpreting bytes:
`start` is the byte offset of its first element inside the byte buffer
it was carved from, `count` its number of `T` elements. -/
structure RawSlice where
  start : Nat
  count : Nat
deriving DecidableEq

/-- The bytes a `RawSlice` views inside `data`, for element size `size`:
`data[start .. start + size * count)`. -/
def RawSlice.view (s : RawSlice) (size : Nat) (data : List UInt8) : List UInt8 :=
  (data.drop s.start).take (size * s.count)

/-- The error string returned by `extract_from_slice` on a misaligned offset. -/
def misalignedMsg : String :=
  "extract_from_slice: Offset not aligned on type T sized boundary!"

/-- The error string returned by `extract_from_slice` on a too-short buffer. -/
def tooShortMsg : String :=
  "extract_from_slice: Slice too short to contain n instances of T!"

/-- `extract_from_slice::<T>(data, offset, n)` from `elf/src/lib.rs`, for a
record type `T` with `size = size_of::<T>()` and `align = align_of::<T>()`.

Branches, in source order:
1. `offset % align_of::<T>() != 0` → the misalignment error;
2. `data.len() - offset` underflows (`offset > data.len()`) → panic
   (checked `usize` subtraction);
3. `size_of::<T>() * n` overflows → panic (checked `usize` multiplication);
4. `data.len() - offset < size_of::<T>() * n` → the truncation error;
5. otherwise `Ok(slice::from_raw_parts(data[offset..].as_ptr() as *const T, n))`,
   a view of `n` elements starting at byte `offset` of `data`. -/
def extract_from_slice (size align : Nat) (data : List UInt8)
    (offset n : Nat) : Outcome RawSlice :=
  if offset % align ≠ 0 then
    Outcome.err misalignedMsg
  else if data.length < offset then
    Outcome.panic
  else if USIZE ≤ size * n then
    Outcome.panic
  else if data.length - offset < size * n then
    Outcome.err tooShortMsg
  else
    Outcome.ok (RawSlice.mk offset n)

/-- Little-endian value of a byte list: `[b0, b1, ...]` is
`b0 + 256 * b1 + ...`. -/
def leNat (l : List UInt8) : Nat :=
  l.foldr (fun b acc => b.toNat + 256 * acc) 0

/-- Read the `len`-byte little-endian field at byte offset `start`. -/
def readLE (data : List UInt8) (start len : Nat) : Nat :=
  leNat ((data.drop start).take len)

/-- Modelled from the spec: the parsed file header's numeric geometry
(`file.rs` is not in the provided sources). Fields are the section-header
table offset / entry size / count, the section-header string-table index,
and the program-header table offset / entry size / count, as `usize`
values. -/
structure FileHeader where
  sh_offset : Nat
  sh_entsize : Nat
  sh_count : Nat
  sh_str_idx : Nat
  ph_offset : Nat
  ph_entsize : Nat
  ph_count : Nat
deriving DecidableEq

/-- Modelled from the spec: `sh_range()` (missing `file.rs`) is the pure
function `sh_offset .. sh_offset + sh_entsize * sh_count` of the parsed
fields; with checked arithmetic an overflowing end bound is a panic. -/
def FileHeader.sh_range (h : FileHeader) : Outcome (Nat × Nat) :=
  if h.sh_offset + h.sh_entsize * h.sh_count < USIZE then
    Outcome.ok (h.sh_offset, h.sh_offset + h.sh_entsize * h.sh_count)
  else
    Outcome.panic

/-- Modelled from the spec: `ph_range()` (missing `file.rs`), analogous to
`sh_range()`. -/
def FileHeader.ph_range (h : FileHeader) : Outcome (Nat × Nat) :=
  if h.ph_offset + h.ph_entsize * h.ph_count < USIZE then
    Outcome.ok (h.ph_offset, h.ph_offset + h.ph_entsize * h.ph_count)
  else
    Outcome.panic

/-- Modelled from the spec: the 64-bit little-endian file-header parser
(`<&FileHeader>::try_from` in the missing `file.rs`). Per spec 4.2 the
header is a typed view over the buffer's first `size_of::<FileHeader>()`
(= 64) bytes obtained through the extraction primitive with `n = 1`, the
identification bytes (magic, class, endianness) are validated before any
numeric field is trusted, and the numeric fields sit at the offsets fixed
by the ELF64 layout (spec section 6: bit-for-bit the ELF specification). -/
def FileHeader.try_from (bytes : List UInt8) : Outcome FileHeader :=
  Outcome.bind (extract_from_slice 64 8 bytes 0 1) (fun _ =>
    if bytes.take 4 ≠ [0x7f, 0x45, 0x4c, 0x46] then
      Outcome.err ("not an ELF file")
    else if bytes.getD 4 0 ≠ 2 then
      Outcome.err ("unsupported ELF class")
    else if bytes.getD 5 0 ≠ 1 then
      Outcome.err ("unsupported ELF endianness")
    else
      Outcome.ok
        (FileHeader.mk (readLE bytes 0x28 8) (readLE bytes 0x3A 2)
          (readLE bytes 0x3C 2) (readLE bytes 0x3E 2) (readLE bytes 0x20 8)
          (readLE bytes 0x36 2) (readLE bytes 0x38 2)))

/-- Rust range indexing `&bytes[a..b]`: panics when `a > b` or
`b > bytes.len()`, otherwise the subslice of length `b - a` starting at
`a`. -/
def sliceRange (bytes : List UInt8) (a b : Nat) : Outcome (List UInt8) :=
  if a ≤ b ∧ b ≤ bytes.length then
    Outcome.ok ((bytes.drop a).take (b - a))
  else
    Outcome.panic

/-- The section-header step of `Image::try_from`:
`extract_from_slice::<Section>(&bytes[header.sh_range()], 0, header.sh_count())`,
for a section record of size `secSize` and alignment `secAlign`. -/
def shStep (secSize secAlign : Nat) (bytes : List UInt8)
    (h : FileHeader) : Outcome RawSlice :=
  Outcome.bind h.sh_range (fun sr =>
    Outcome.bind (sliceRange bytes sr.1 sr.2) (fun shBytes =>
      extract_from_slice secSize secAlign shBytes 0 h.sh_count))

/-- The program-header step of `Image::try_from`:
`extract_from_slice::<PH>(&bytes[header.ph_range()], 0, header.ph_count())`. -/
def phStep (phSize phAlign : Nat) (bytes : List UInt8)
    (h : FileHeader) : Outcome RawSlice :=
  Outcome.bind h.ph_range (fun pr =>
    Outcome.bind (sliceRange bytes pr.1 pr.2) (fun phBytes =>
      extract_from_slice phSize phAlign phBytes 0 h.ph_count))

/-- The `Image` aggregate of `elf/src/lib.rs`: the parsed file header, the
two reinterpreted slices (relative to the subslices they were carved
from), and the entire original byte buffer. -/
structure Image where
  header : FileHeader
  sections : RawSlice
  program_headers : RawSlice
  binary : List UInt8
deriving DecidableEq

/-- `Image::try_from(bytes)` from `elf/src/lib.rs`: parse the file header,
extract the section-header slice from `&bytes[header.sh_range()]` with
offset `0` and count `header.sh_count()`, extract the program-header slice
from `&bytes[header.ph_range()]` with offset `0` and count
`header.ph_count()`, propagating each step's error via `?`, then assemble
the `Image` with the original buffer. `secSize`/`secAlign` and
`phSize`/`phAlign` are the size and alignment of the section-header and
program-header record types. -/
def Image.try_from (secSize secAlign phSize phAlign : Nat)
    (bytes : List UInt8) : Outcome Image :=
  Outcome.bind (FileHeader.try_from bytes) (fun header =>
    Outcome.bind (shStep secSize secAlign bytes header) (fun sections =>
      Outcome.bind (phStep phSize phAlign bytes header) (fun progHeaders =>
        Outcome.ok (Image.mk header sections progHeaders bytes))))

/-- `Image::sh_str_table`: `StrTable::from(&self.binary[self.header.sh_str_idx()..])`.
The `StrTable` view (missing `section.rs`) is modelled from the spec as the
byte suffix it wraps; the Rust slice indexing panics when the start index
exceeds the buffer length, and no other bounds validation is performed. -/
def Image.sh_str_table (img : Image) : Outcome (List UInt8) :=
  if img.header.sh_str_idx ≤ img.binary.length then
    Outcome.ok (img.binary.drop img.header.sh_str_idx)
  else
    Outcome.panic

/-- True iff an outcome is the misalignment error value. -/
def Outcome.isMisalignedErr {A : Type} : Outcome A → Bool
  | Outcome.err e => decide (e = misalignedMsg)
  | _ => false

/-- `len` bytes encoding `v` in little-endian order. -/
def leBytes : Nat → Nat → List UInt8
  | 0, _ => []
  | len + 1, v => UInt8.ofNat (v % 256) :: leBytes len (v / 256)

/-- The 16 identification bytes of a 64-bit little-endian ELF binary:
magic `\x7fELF`, class 2 (64-bit), data 1 (little-endian), version 1. -/
def elfIdent : List UInt8 :=
  [0x7f, 0x45, 0x4c, 0x46, 2, 1, 1, 0] ++ List.replicate 8 0

/-- A 64-byte ELF64 file header with the given program-header table
offset / entry size / count, section-header table offset / entry size /
count, and string-table index, the remaining fields fixed. -/
def mkHeader (phOff phEntsize phNum shOff shEntsize shNum shStrNdx : Nat) :
    List UInt8 :=
  elfIdent ++ leBytes 2 2 ++ leBytes 2 62 ++ leBytes 4 1 ++
    leBytes 8 0x1000 ++ leBytes 8 phOff ++ leBytes 8 shOff ++ leBytes 4 0 ++
    leBytes 2 64 ++ leBytes 2 phEntsize ++ leBytes 2 phNum ++
    leBytes 2 shEntsize ++ leBytes 2 shNum ++ leBytes 2 shStrNdx

/-- A 368-byte well-formed ELF64 image: 64-byte header, a program-header
table of 2 × 56 bytes at offset 64, a section-header table of 3 × 64 bytes
at offset 176, and string-table index 360. -/
def validBytes : List UInt8 :=
  mkHeader 64 56 2 176 64 3 360 ++ List.replicate 304 0

/-- The `Image` that `Image::try_from` produces on `validBytes`. -/
def validImg : Image :=
  Image.mk (FileHeader.mk 176 64 3 360 64 56 2) (RawSlice.mk 0 3)
    (RawSlice.mk 0 2) validBytes

/-- A 128-byte well-formed ELF64 image: 64-byte header, an empty
program-header table, and a section-header table of 1 × 64 bytes at
offset 64. -/
def okBytes : List UInt8 :=
  mkHeader 0 56 0 64 64 1 0 ++ List.replicate 64 0

/-- `okBytes` with its last 4 bytes removed: the declared section-header
table range `64 .. 128` now extends 4 bytes past the 124-byte buffer. -/
def truncBytes : List UInt8 :=
  mkHeader 0 56 0 64 64 1 0 ++ List.replicate 60 0

/-- A 130-byte ELF64 image whose section-header table starts at the odd
offset 65, not a multiple of the section record's 8-byte alignment. -/
def misalignedBytes : List UInt8 :=
  mkHeader 0 56 0 65 64 1 0 ++ List.replicate 66 0

end SosElf

namespace SosElf

/-- Success of `extract_from_slice` forces all checks to have passed and
determines the returned slice. -/
theorem extract_ok_elim {size align : Nat} {data : List UInt8} {offset n : Nat}
    {s : RawSlice}
    (h : extract_from_slice size align data offset n = Outcome.ok s) :
    offset % align = 0 ∧ offset ≤ data.length ∧ size * n < USIZE ∧
      size * n ≤ data.length - offset ∧ s = RawSlice.mk offset n := by
  unfold extract_from_slice at h
  split_ifs at h with h1 h2 h3 h4
  exact ⟨Decidable.not_not.mp h1, Nat.le_of_not_lt h2, Nat.lt_of_not_le h3,
    Nat.le_of_not_lt h4, (Outcome.ok.injEq _ _).mp h |>.symm⟩

/-- An error from `extract_from_slice` at offset `0` is the truncation
error: the alignment check on `0` always passes. -/
theorem extract_zero_err_elim {size align : Nat} {data : List UInt8} {n : Nat}
    {e : String}
    (h : extract_from_slice size align data 0 n = Outcome.err e) :
    e = tooShortMsg := by
  unfold extract_from_slice at h
  split_ifs at h with h1 h2 h3 h4
  · exact absurd (Nat.zero_mod align) h1
  · exact ((Outcome.err.injEq _ _).mp h).symm

/-- C1: whenever `offset` is not a multiple of `align_of::<T>()`,
`extract_from_slice::<T>(data, offset, n)` returns the misalignment error,
for every buffer `data` and count `n` — the alignment check comes first,
before any length arithmetic. -/
theorem extract_misaligned_first (size align : Nat) (data : List UInt8)
    (offset n : Nat) (h : offset % align ≠ 0) :
    extract_from_slice size align data offset n = Outcome.err misalignedMsg := by
  unfold extract_from_slice
  simp [h]

/-- Witness for C1 at a concrete misaligned input: offset `3`, alignment `8`,
an empty buffer and a nonzero count. -/
theorem extract_misaligned_first_witness :
    (3 : Nat) % 8 ≠ 0 ∧
      extract_from_slice 64 8 [] 3 1 = Outcome.err misalignedMsg :=
  ⟨by decide, extract_misaligned_first 64 8 [] 3 1 (by decide)⟩

/-- C2 fails as stated: at `size = align = 8`, `data = []`, `offset = 8`,
`n = 0`, the offset is aligned and `data.len() - offset < size * n` holds
over the integers (`0 - 8 = -8 < 0`), yet the call panics (the `usize`
subtraction `data.len() - offset` underflows) instead of returning the
truncation error. -/
theorem extract_offset_past_end_panics :
    (8 : Nat) % 8 = 0 ∧ ((0 : Int) - 8 < 8 * 0) ∧
      extract_from_slice 8 8 [] 8 0 = Outcome.panic ∧
      extract_from_slice 8 8 [] 8 0 ≠ Outcome.err tooShortMsg := by
  refine ⟨by decide, by decide, by decide, by decide⟩

/-- C2 (amended): for an aligned offset with `offset ≤ data.len()` and a
non-overflowing `size_of::<T>() * n`, if `data.len() - offset < size * n`
then `extract_from_slice` returns the truncation error. -/
theorem extract_truncation (size align : Nat) (data : List UInt8)
    (offset n : Nat) (h1 : offset % align = 0) (h2 : offset ≤ data.length)
    (h3 : size * n < USIZE) (h4 : data.length - offset < size * n) :
    extract_from_slice size align data offset n = Outcome.err tooShortMsg := by
  unfold extract_from_slice
  simp only [h1]
  simp [Nat.not_lt.mpr h2, Nat.not_le.mpr h3, h4]

/-- Witness for the amended C2: a 64-byte buffer cannot hold two 64-byte
records. -/
theorem extract_truncation_witness :
    (0 : Nat) % 8 = 0 ∧ 0 ≤ (List.replicate 64 (0 : UInt8)).length ∧
      64 * 2 < USIZE ∧ (List.replicate 64 (0 : UInt8)).length - 0 < 64 * 2 ∧
      extract_from_slice 64 8 (List.replicate 64 0) 0 2 =
        Outcome.err tooShortMsg :=
  ⟨by decide, by decide, by decide, by decide,
    extract_truncation 64 8 (List.replicate 64 0) 0 2 (by decide) (by decide)
      (by decide) (by decide)⟩

/-- C3: a successful `extract_from_slice::<T>(data, offset, n)` returns a
slice of exactly `n` elements starting at byte `offset`, whose viewed byte
range `data[offset .. offset + size * n)` lies entirely inside `data`
(`offset + size * n ≤ data.len()`) and has exactly `size * n` bytes. -/
theorem extract_ok_in_bounds (size align : Nat) (data : List UInt8)
    (offset n : Nat) (s : RawSlice)
    (h : extract_from_slice size align data offset n = Outcome.ok s) :
    s.start = offset ∧ s.count = n ∧ offset + size * n ≤ data.length ∧
      s.view size data = (data.drop offset).take (size * n) ∧
      (s.view size data).length = size * n := by
  obtain ⟨-, h2, -, h4, h5⟩ := extract_ok_elim h
  subst h5
  refine ⟨rfl, rfl, by omega, rfl, ?_⟩
  simp [RawSlice.view, List.length_take, List.length_drop]
  omega

/-- Witness for C3: extracting one 64-byte record from a 64-byte buffer. -/
theorem extract_ok_in_bounds_witness :
    (RawSlice.mk 0 1).start = 0 ∧ (RawSlice.mk 0 1).count = 1 ∧
      0 + 64 * 1 ≤ (List.replicate 64 (0 : UInt8)).length ∧
      (RawSlice.mk 0 1).view 64 (List.replicate 64 0) =
        ((List.replicate 64 (0 : UInt8)).drop 0).take (64 * 1) ∧
      ((RawSlice.mk 0 1).view 64 (List.replicate 64 (0 : UInt8))).length =
        64 * 1 :=
  extract_ok_in_bounds 64 8 (List.replicate 64 0) 0 1 (RawSlice.mk 0 1)
    (by decide)

/-- C9: with an aligned offset not exceeding the buffer length, extracting
`n = 0` records always succeeds and yields the empty slice. -/
theorem extract_zero_count (size align : Nat) (data : List UInt8)
    (offset : Nat) (h1 : offset % align = 0) (h2 : offset ≤ data.length) :
    extract_from_slice size align data offset 0 =
      Outcome.ok (RawSlice.mk offset 0) ∧
      (RawSlice.mk offset 0).view size data = [] := by
  constructor
  · unfold extract_from_slice
    simp only [h1]
    simp [Nat.not_lt.mpr h2, USIZE]
  · simp [RawSlice.view]

/-- Witness for C9: a zero-count extraction at the end of a 64-byte buffer. -/
theorem extract_zero_count_witness :
    (64 : Nat) % 8 = 0 ∧ 64 ≤ (List.replicate 64 (0 : UInt8)).length ∧
      (extract_from_slice 8 8 (List.replicate 64 0) 64 0 =
        Outcome.ok (RawSlice.mk 64 0) ∧
        (RawSlice.mk 64 0).view 8 (List.replicate 64 (0 : UInt8)) = []) :=
  ⟨by decide, by decide,
    extract_zero_count 8 8 (List.replicate 64 0) 64 (by decide) (by decide)⟩

/-- `sh_range` never returns an error value (it succeeds or panics). -/
theorem sh_range_ne_err {h : FileHeader} {e : String}
    (hr : h.sh_range = Outcome.err e) : False := by
  unfold FileHeader.sh_range at hr
  split_ifs at hr

/-- `ph_range` never returns an error value (it succeeds or panics). -/
theorem ph_range_ne_err {h : FileHeader} {e : String}
    (hr : h.ph_range = Outcome.err e) : False := by
  unfold FileHeader.ph_range at hr
  split_ifs at hr

/-- Slice indexing never returns an error value (it succeeds or panics). -/
theorem sliceRange_ne_err {bytes : List UInt8} {a b : Nat} {e : String}
    (hr : sliceRange bytes a b = Outcome.err e) : False := by
  unfold sliceRange at hr
  split_ifs at hr

/-- An error from the section-header step is the truncation error. -/
theorem shStep_err_elim {secSize secAlign : Nat} {bytes : List UInt8}
    {h : FileHeader} {e : String}
    (hs : shStep secSize secAlign bytes h = Outcome.err e) :
    e = tooShortMsg := by
  unfold shStep at hs
  cases hr : h.sh_range with
  | ok sr =>
    rw [hr] at hs
    simp only [Outcome.bind] at hs
    cases hsl : sliceRange bytes sr.1 sr.2 with
    | ok sb =>
      rw [hsl] at hs
      simp only [Outcome.bind] at hs
      exact extract_zero_err_elim hs
    | err e1 => exact (sliceRange_ne_err hsl).elim
    | panic =>
      rw [hsl] at hs
      exact absurd hs (by simp [Outcome.bind])
  | err e1 => exact (sh_range_ne_err hr).elim
  | panic =>
    rw [hr] at hs
    exact absurd hs (by simp [Outcome.bind])

/-- An error from the program-header step is the truncation error. -/
theorem phStep_err_elim {phSize phAlign : Nat} {bytes : List UInt8}
    {h : FileHeader} {e : String}
    (hs : phStep phSize phAlign bytes h = Outcome.err e) :
    e = tooShortMsg := by
  unfold phStep at hs
  cases hr : h.ph_range with
  | ok pr =>
    rw [hr] at hs
    simp only [Outcome.bind] at hs
    cases hsl : sliceRange bytes pr.1 pr.2 with
    | ok pb =>
      rw [hsl] at hs
      simp only [Outcome.bind] at hs
      exact extract_zero_err_elim hs
    | err e1 => exact (sliceRange_ne_err hsl).elim
    | panic =>
      rw [hsl] at hs
      exact absurd hs (by simp [Outcome.bind])
  | err e1 => exact (ph_range_ne_err hr).elim
  | panic =>
    rw [hr] at hs
    exact absurd hs (by simp [Outcome.bind])

/-- A successful section-header step is an extraction at offset `0` with
count `sh_count`. -/
theorem shStep_ok_elim {secSize secAlign : Nat} {bytes : List UInt8}
    {h : FileHeader} {s : RawSlice}
    (hs : shStep secSize secAlign bytes h = Outcome.ok s) :
    s = RawSlice.mk 0 h.sh_count := by
  unfold shStep at hs
  cases hr : h.sh_range with
  | ok sr =>
    rw [hr] at hs
    simp only [Outcome.bind] at hs
    cases hsl : sliceRange bytes sr.1 sr.2 with
    | ok sb =>
      rw [hsl] at hs
      simp only [Outcome.bind] at hs
      exact (extract_ok_elim hs).2.2.2.2
    | err e1 => exact (sliceRange_ne_err hsl).elim
    | panic =>
      rw [hsl] at hs
      exact absurd hs (by simp [Outcome.bind])
  | err e1 => exact (sh_range_ne_err hr).elim
  | panic =>
    rw [hr] at hs
    exact absurd hs (by simp [Outcome.bind])

/-- A successful program-header step is an extraction at offset `0` with
count `ph_count`. -/
theorem phStep_ok_elim {phSize phAlign : Nat} {bytes : List UInt8}
    {h : FileHeader} {s : RawSlice}
    (hs : phStep phSize phAlign bytes h = Outcome.ok s) :
    s = RawSlice.mk 0 h.ph_count := by
  unfold phStep at hs
  cases hr : h.ph_range with
  | ok pr =>
    rw [hr] at hs
    simp only [Outcome.bind] at hs
    cases hsl : sliceRange bytes pr.1 pr.2 with
    | ok pb =>
      rw [hsl] at hs
      simp only [Outcome.bind] at hs
      exact (extract_ok_elim hs).2.2.2.2
    | err e1 => exact (sliceRange_ne_err hsl).elim
    | panic =>
      rw [hsl] at hs
      exact absurd hs (by simp [Outcome.bind])
  | err e1 => exact (ph_range_ne_err hr).elim
  | panic =>
    rw [hr] at hs
    exact absurd hs (by simp [Outcome.bind])

/-- An error from the file-header parse is the extraction primitive's
truncation error or one of the identification errors. -/
theorem header_try_from_err_elim {bytes : List UInt8} {e : String}
    (h : FileHeader.try_from bytes = Outcome.err e) :
    e = tooShortMsg ∨ e = "not an ELF file" ∨ e = "unsupported ELF class" ∨
      e = "unsupported ELF endianness" := by
  unfold FileHeader.try_from at h
  cases hx : extract_from_slice 64 8 bytes 0 1 with
  | ok s =>
    rw [hx] at h
    simp only [Outcome.bind] at h
    split_ifs at h with h1 h2 h3
    · exact Or.inr (Or.inl ((Outcome.err.injEq _ _).mp h).symm)
    · exact Or.inr (Or.inr (Or.inl ((Outcome.err.injEq _ _).mp h).symm))
    · exact Or.inr (Or.inr (Or.inr ((Outcome.err.injEq _ _).mp h).symm))
  | err e1 =>
    rw [hx] at h
    simp only [Outcome.bind, Outcome.err.injEq] at h
    exact Or.inl (h ▸ extract_zero_err_elim hx)
  | panic =>
    rw [hx] at h
    exact absurd h (by simp [Outcome.bind])

/-- C4 fails on the code: `okBytes` parses to an `Image`, `truncBytes` is
`okBytes` with its last 4 bytes removed (so its declared section-header
table range runs past the end of the buffer), and on `truncBytes` the
construction panics at the slice indexing `&bytes[header.sh_range()]`
instead of returning the truncation error. Record sizes are the ELF64
ones: 64-byte / 8-aligned section headers, 56-byte / 8-aligned program
headers. -/
theorem image_truncated_table_panics :
    Image.try_from 64 8 56 8 okBytes =
        Outcome.ok (Image.mk (FileHeader.mk 64 64 1 0 0 56 0)
          (RawSlice.mk 0 1) (RawSlice.mk 0 0) okBytes) ∧
      truncBytes = okBytes.take 124 ∧
      Image.try_from 64 8 56 8 truncBytes = Outcome.panic := by
  refine ⟨by decide, by decide, by decide⟩

/-- C5 fails on the code: `misalignedBytes` declares its section-header
table at the odd offset 65, which is not a multiple of the 8-byte record
alignment, yet `Image::try_from` succeeds — the buffer is first re-sliced
at `sh_range`'s start, so the extraction's alignment check only ever sees
the literal offset `0` and the misalignment error is never produced. -/
theorem image_misaligned_table_not_detected :
    (65 : Nat) % 8 = 1 ∧
      Image.try_from 64 8 56 8 misalignedBytes =
        Outcome.ok (Image.mk (FileHeader.mk 65 64 1 0 0 56 0)
          (RawSlice.mk 0 1) (RawSlice.mk 0 0) misalignedBytes) := by
  refine ⟨by decide, by decide⟩

/-- C6: `Image::try_from` returns `Err e` exactly when the file-header
parse, the section-header extraction step, or the program-header
extraction step fails with `e` — the failing step's error propagates
unchanged, and on any failure no `Image` is produced. -/
theorem image_try_from_err_iff (secSize secAlign phSize phAlign : Nat)
    (bytes : List UInt8) (e : String) :
    Image.try_from secSize secAlign phSize phAlign bytes = Outcome.err e ↔
      (FileHeader.try_from bytes = Outcome.err e ∨
        ∃ h, FileHeader.try_from bytes = Outcome.ok h ∧
          (shStep secSize secAlign bytes h = Outcome.err e ∨
            ∃ s, shStep secSize secAlign bytes h = Outcome.ok s ∧
              phStep phSize phAlign bytes h = Outcome.err e)) := by
  cases hp : FileHeader.try_from bytes with
  | ok hdr =>
    cases hs : shStep secSize secAlign bytes hdr with
    | ok s =>
      cases hph : phStep phSize phAlign bytes hdr with
      | ok p => simp [Image.try_from, Outcome.bind, hp, hs, hph]
      | err e1 => simp [Image.try_from, Outcome.bind, hp, hs, hph]
      | panic => simp [Image.try_from, Outcome.bind, hp, hs, hph]
    | err e1 => simp [Image.try_from, Outcome.bind, hp, hs]
    | panic => simp [Image.try_from, Outcome.bind, hp, hs]
  | err e1 => simp [Image.try_from, Outcome.bind, hp]
  | panic => simp [Image.try_from, Outcome.bind, hp]

/-- C7: a successfully constructed `Image` has exactly `sh_count` sections
and `ph_count` program headers, and its `binary` field is the whole
original input buffer, unchanged. -/
theorem image_ok_shape (secSize secAlign phSize phAlign : Nat)
    (bytes : List UInt8) (img : Image)
    (h : Image.try_from secSize secAlign phSize phAlign bytes =
      Outcome.ok img) :
    img.sections.count = img.header.sh_count ∧
      img.program_headers.count = img.header.ph_count ∧
      img.binary = bytes := by
  unfold Image.try_from at h
  cases hp : FileHeader.try_from bytes with
  | ok hdr =>
    rw [hp] at h
    simp only [Outcome.bind] at h
    cases hs : shStep secSize secAlign bytes hdr with
    | ok s =>
      rw [hs] at h
      cases hph : phStep phSize phAlign bytes hdr with
      | ok p =>
        rw [hph] at h
        obtain rfl := (Outcome.ok.injEq _ _).mp h
        exact ⟨congrArg RawSlice.count (shStep_ok_elim hs),
          congrArg RawSlice.count (phStep_ok_elim hph), rfl⟩
      | err e1 =>
        rw [hph] at h
        exact absurd h (by simp)
      | panic =>
        rw [hph] at h
        exact absurd h (by simp)
    | err e1 =>
      rw [hs] at h
      exact absurd h (by simp)
    | panic =>
      rw [hs] at h
      exact absurd h (by simp)
  | err e1 =>
    rw [hp] at h
    exact absurd h (by simp [Outcome.bind])
  | panic =>
    rw [hp] at h
    exact absurd h (by simp [Outcome.bind])

/-- Witness for C7: the 368-byte well-formed binary with 3 section headers
and 2 program headers constructs an `Image` with 3 sections, 2 program
headers and the original buffer. -/
theorem image_ok_shape_witness :
    validImg.sections.count = validImg.header.sh_count ∧
      validImg.program_headers.count = validImg.header.ph_count ∧
      validImg.binary = validBytes :=
  image_ok_shape 64 8 56 8 validBytes validImg (by decide)

/-- C8: `sh_str_table` is exactly the suffix of `binary` from byte
position `header.sh_str_idx()` to the end of the buffer; the only bounds
check is the one slicing itself enforces (an index past the end of the
buffer panics). -/
theorem sh_str_table_spec (img : Image) :
    (img.header.sh_str_idx ≤ img.binary.length →
      img.sh_str_table =
        Outcome.ok (img.binary.drop img.header.sh_str_idx)) ∧
      (img.binary.length < img.header.sh_str_idx →
        img.sh_str_table = Outcome.panic) := by
  constructor
  · intro h
    unfold Image.sh_str_table
    simp [h]
  · intro h
    unfold Image.sh_str_table
    simp [Nat.not_le.mpr h]

/-- Witness for C8: on the well-formed 368-byte image the string table is
the 8-byte suffix starting at index 360. -/
theorem sh_str_table_spec_witness :
    validImg.sh_str_table =
      Outcome.ok (validImg.binary.drop validImg.header.sh_str_idx) :=
  (sh_str_table_spec validImg).1 (by decide)

/-- C10: `Image::try_from` never returns the misalignment error: both
extractions receive the literal offset `0`, which is a multiple of every
alignment, so the only extraction error it can surface is the truncation
error. -/
theorem image_never_misaligned_err (secSize secAlign phSize phAlign : Nat)
    (bytes : List UInt8) :
    (Image.try_from secSize secAlign phSize phAlign bytes).isMisalignedErr =
      false := by
  cases hp : FileHeader.try_from bytes with
  | ok hdr =>
    cases hs : shStep secSize secAlign bytes hdr with
    | ok s =>
      cases hph : phStep phSize phAlign bytes hdr with
      | ok p =>
        simp [Image.try_from, Outcome.bind, hp, hs, hph, Outcome.isMisalignedErr]
      | err e1 =>
        obtain rfl := phStep_err_elim hph
        simp only [Image.try_from, Outcome.bind, hp, hs, hph]
        simp [Outcome.isMisalignedErr]
        decide
      | panic =>
        simp [Image.try_from, Outcome.bind, hp, hs, hph, Outcome.isMisalignedErr]
    | err e1 =>
      obtain rfl := shStep_err_elim hs
      simp only [Image.try_from, Outcome.bind, hp, hs]
      simp [Outcome.isMisalignedErr]
      decide
    | panic =>
      simp [Image.try_from, Outcome.bind, hp, hs, Outcome.isMisalignedErr]
  | err e1 =>
    rcases header_try_from_err_elim hp with rfl | rfl | rfl | rfl <;>
      simp only [Image.try_from, Outcome.bind, hp] <;>
      simp [Outcome.isMisalignedErr] <;> decide
  | panic =>
    simp [Image.try_from, Outcome.bind, hp, Outcome.isMisalignedErr]

end SosElf
